import Mathlib

/-!
Shallow embedding of the Fulcrum / Protocol 402 prediction-market front-end
(src/app/page.tsx) together with the spec-described off-chain monitoring
agent.  JavaScript numbers are modelled as exact rationals, contract
uint256 values as naturals, and the stateful React handlers as explicit
state-passing functions with an explicit failure oracle.
-/

namespace Fulcrum

/-- The front-end smart-contract ABI (CONTRACT_ABI in page.tsx). -/
def CONTRACT_ABI : List String :=
  [ "function openPosition(string memory _marketId, bool _isLongYes, uint256 _entryPrice, uint256 _leverage) external payable returns (uint256)"
  , "function getPosition(uint256 positionId) external view returns (tuple(string marketId, address trader, bool isLongYes, uint256 entryPrice, uint256 collateral, uint256 leverage, uint256 openedAt, bool isOpen))"
  , "function positions(uint256) external view returns (string marketId, address trader, bool isLongYes, uint256 entryPrice, uint256 collateral, uint256 leverage, uint256 openedAt, bool isOpen)"
  , "function nextPositionId() external view returns (uint256)"
  , "function closePosition(uint256 positionId) external"
  , "function settlePosition(uint256 positionId) external" ]

/-- One entry of the mock market list (type Market in page.tsx). -/
structure Market where
  id : Nat
  title : String
  image : String
  volume : String
  chance : Nat
  category : String

/-- The MARKETS mock-data list of page.tsx (image URLs abbreviated to their
path component; they play no computational role). -/
def MARKETS : List Market :=
  [ ⟨1, "Will SpaceX Starship reach orbit in 2025?", "photo-1517976487492", "$4.2M", 78, "Science"⟩
  , ⟨2, "Fed Interest Rate Decision: Cut in December?", "photo-1611974765270", "$12.5M", 42, "Economics"⟩
  , ⟨3, "Bitcoin to break $100k before Q3?", "photo-1518546305927", "$89.1M", 65, "Crypto"⟩
  , ⟨4, "Apple to announce foldable iPhone this year?", "photo-1510557880182", "$1.8M", 12, "Tech"⟩
  , ⟨5, "Who will win the 2026 World Cup?", "photo-1522770179533", "$5.6M", 18, "Sports"⟩
  , ⟨6, "GPT-5 release date before June 2025?", "photo-1677442136019", "$3.4M", 88, "AI"⟩ ]

/-- The position tuple returned by the contract getPosition call
(tuple(string marketId, address trader, bool isLongYes, uint256 entryPrice,
uint256 collateral, uint256 leverage, uint256 openedAt, bool isOpen)). -/
structure RawPosition where
  marketId : String
  trader : String
  isLongYes : Bool
  entryPrice : Nat
  collateral : Nat
  leverage : Nat
  openedAt : Nat
  isOpen : Bool

/-- The front-end Position record (type Position in page.tsx).  The two
optional derived fields currentPrice and pnl are always set by
fetchPositions, so they are modelled as plain fields. -/
structure Position where
  id : Nat
  marketId : String
  trader : String
  isLongYes : Bool
  entryPrice : ℚ
  collateral : Nat
  leverage : Nat
  openedAt : Nat
  isOpen : Bool
  currentPrice : ℚ
  pnl : ℚ

/-- ethers.formatUnits(collateral, 6): micro-USDC to USDC. -/
def formatUnits6 (collateral : Nat) : ℚ :=
  (collateral : ℚ) / 1000000

/-- calculateAMMPrices of page.tsx.  The source has the default argument
initialLiquidity = 1000; here the liquidity is always passed explicitly. -/
def calculateAMMPrices (yesVolume noVolume initialLiquidity : ℚ) : ℚ × ℚ :=
  let yesShares := initialLiquidity / 2 + yesVolume
  let noShares := initialLiquidity / 2 + noVolume
  let total := yesShares + noShares
  ((noShares / total) * 100, (yesShares / total) * 100)

/-- The currentPrice computation inside fetchPositions: the chance of the
matching mock market for the side of the position, falling back to the
entry price when no market matches the stored marketId. -/
def currentPriceFor (markets : List Market) (pos : RawPosition) : ℚ :=
  match markets.find? (fun m => m.title == pos.marketId) with
  | some market => if pos.isLongYes then (market.chance : ℚ) else 100 - (market.chance : ℚ)
  | none => (pos.entryPrice : ℚ)

/-- The unrealized-PnL computation inside fetchPositions: a bare price
difference for leverage 1, and price difference times collateral times
leverage otherwise. -/
def fetchPnl (pos : RawPosition) (currentPrice : ℚ) : ℚ :=
  if pos.leverage = 1 then
    (currentPrice - (pos.entryPrice : ℚ)) / 100
  else
    ((currentPrice - (pos.entryPrice : ℚ)) / 100) * formatUnits6 pos.collateral * (pos.leverage : ℚ)

/-- The Position record pushed onto userPositions by fetchPositions for the
contract tuple pos fetched at index i. -/
def mkPosition (markets : List Market) (i : Nat) (pos : RawPosition) : Position :=
  let currentPrice := currentPriceFor markets pos
  { id := i
  , marketId := pos.marketId
  , trader := pos.trader
  , isLongYes := pos.isLongYes
  , entryPrice := (pos.entryPrice : ℚ)
  , collateral := pos.collateral
  , leverage := pos.leverage
  , openedAt := pos.openedAt
  , isOpen := pos.isOpen
  , currentPrice := currentPrice
  , pnl := fetchPnl pos currentPrice }

/-- The filter-and-assemble loop of fetchPositions over the indexed contract
tuples: keep open positions of the connected wallet and build Position
records for them. -/
def fetchPositionsList (markets : List Market) (walletAddress : String)
    (raws : List (Nat × RawPosition)) : List Position :=
  (raws.filter (fun ip => ip.2.trader.toLower == walletAddress.toLower && ip.2.isOpen)).map
    (fun ip => mkPosition markets ip.1 ip.2)

/-- The per-market statistics record (type MarketStats in page.tsx). -/
structure MarketStats where
  id : Nat
  yesVolume : ℚ
  noVolume : ℚ
  yesPrice : ℚ
  noPrice : ℚ
  totalVolume : ℚ

/-- The volume-accumulation loop of the marketStats useEffect: one pass over
the market positions, adding each collateral (in USDC) to the yes or the no
accumulator according to isLongYes. -/
def accumulateVolumes (marketPositions : List Position) : ℚ × ℚ :=
  marketPositions.foldl
    (fun acc p =>
      let volumeUSDC := formatUnits6 p.collateral
      if p.isLongYes then (acc.1 + volumeUSDC, acc.2) else (acc.1, acc.2 + volumeUSDC))
    (0, 0)

/-- The MarketStats entry the marketStats useEffect computes for one market
from the current positions list. -/
def computeMarketStats (positions : List Position) (market : Market) : MarketStats :=
  let marketPositions := positions.filter (fun p => p.marketId == market.title && p.isOpen)
  let vols := accumulateVolumes marketPositions
  let prices := calculateAMMPrices vols.1 vols.2 1000
  { id := market.id
  , yesVolume := vols.1
  , noVolume := vols.2
  , yesPrice := prices.1
  , noPrice := prices.2
  , totalVolume := vols.1 + vols.2 }

/-- The currentPrice lookup of handleClosePosition: the dynamic AMM price of
the side when market stats exist for the matching market, else the static
chance, else the entry price. -/
def closeCurrentPrice (markets : List Market) (stats : Nat → Option MarketStats)
    (position : Position) : ℚ :=
  match markets.find? (fun m => m.title == position.marketId) with
  | none => position.entryPrice
  | some market =>
    match stats market.id with
    | some st => if position.isLongYes then st.yesPrice else st.noPrice
    | none => if position.isLongYes then (market.chance : ℚ) else 100 - (market.chance : ℚ)

/-- The realized-PnL computation of handleClosePosition: collateral times the
percentage price difference for leverage 1, and price difference times
collateral times leverage otherwise. -/
def closePnl (position : Position) (currentPrice : ℚ) : ℚ :=
  if position.leverage = 1 then
    formatUnits6 position.collateral * ((currentPrice - position.entryPrice) / 100)
  else
    ((currentPrice - position.entryPrice) / 100) * formatUnits6 position.collateral * (position.leverage : ℚ)

/-- Notification type of the showNotification helper. -/
inductive NotificationKind
  | success
  | error

/-- The payload of the two showNotification calls made by
handleClosePosition, with the realized PnL in place of its rendered
string. -/
inductive CloseMessage
  | realizedPnl (pnl : ℚ)
  | failedToClose

/-- A pending notification: message payload plus kind. -/
structure AppNotification where
  message : CloseMessage
  kind : NotificationKind

/-- The slice of React state handleClosePosition touches. -/
structure AppState where
  positions : List Position
  closingPositionId : Option Nat
  notification : Option AppNotification

/-- The awaited effectful steps inside the try block of handleClosePosition,
any of which can throw. -/
inductive CloseStep
  | switchChain
  | getProvider
  | getSigner
  | sendTx
  | txWait

/-- handleClosePosition of page.tsx as a state transformer.  walletsConnected
models wallets.length > 0; fail names the first awaited step that throws
(none when the whole call succeeds).  The guards return the state unchanged;
a throw is caught, shows the failure notification and, like the success
path, ends in the finally block resetting closingPositionId to null.  The
success path shows the realized-PnL notification and filters the closed
position out of the positions list. -/
def handleClosePosition (markets : List Market) (stats : Nat → Option MarketStats)
    (walletsConnected : Bool) (s : AppState) (positionId : Nat)
    (fail : Option CloseStep) : AppState :=
  if !walletsConnected then s
  else
    match s.positions.find? (fun p => p.id == positionId) with
    | none => s
    | some position =>
      let s1 : AppState := { s with closingPositionId := some positionId }
      match fail with
      | some _ =>
        { s1 with
            notification := some ⟨CloseMessage.failedToClose, NotificationKind.error⟩
          , closingPositionId := none }
      | none =>
        let currentPrice := closeCurrentPrice markets stats position
        let pnl := closePnl position currentPrice
        let kind := if 0 ≤ pnl then NotificationKind.success else NotificationKind.error
        { s1 with
            notification := some ⟨CloseMessage.realizedPnl pnl, kind⟩
          , positions := s1.positions.filter (fun p => p.id != positionId)
          , closingPositionId := none }

/-- The amount fallback of handleTrade: parseFloat(tradeAmount) || 10.  The
parsed input is none when parseFloat yields NaN; a parsed 0 is falsy in
JavaScript and also falls back to 10. -/
def parseTradeAmount (parsed : Option ℚ) : ℚ :=
  match parsed with
  | none => 10
  | some a => if a = 0 then 10 else a

/-- ethers.parseUnits(amount.toFixed(6), 6): the amount rounded to six
decimal places (half away from zero) and scaled to micro-USDC. -/
def parseUnits6 (a : ℚ) : ℤ :=
  if a < 0 then -Int.floor (-a * 1000000 + 1 / 2) else Int.floor (a * 1000000 + 1 / 2)

/-- The collateralAmount computation of handleTrade: both the perpetual
(leverage > 1) branch and the spot branch send parseUnits(amount.toFixed(6), 6). -/
def tradeCollateralAmount (leverage : Nat) (parsed : Option ℚ) : ℤ :=
  let amount := parseTradeAmount parsed
  if 1 < leverage then parseUnits6 amount else parseUnits6 amount

/-- The two execution paths of the hybrid routing model. -/
inductive ExecutionPath
  | spot
  | synthetic

/-- The branch taken by the PnL computation in fetchPositions: spot exactly
when the raw leverage equals 1. -/
def pnlPathOf (pos : RawPosition) : ExecutionPath :=
  if pos.leverage = 1 then ExecutionPath.spot else ExecutionPath.synthetic

/-- The branch taken by handleTrade when building the collateral: the
perpetual path exactly when leverage > 1. -/
def tradePathOf (leverage : Nat) : ExecutionPath :=
  if 1 < leverage then ExecutionPath.synthetic else ExecutionPath.spot

/-- Modelled from the spec: the unrealized PnL the off-chain Python agent
(backend/agent.py, absent from src/) computes for a monitored position
against the oracle price: (currentPrice - entryPrice)/100 x collateral x
leverage. -/
def agentPnl (pos : RawPosition) (oraclePrice : ℚ) : ℚ :=
  ((oraclePrice - (pos.entryPrice : ℚ)) / 100) * formatUnits6 pos.collateral * (pos.leverage : ℚ)

/-- Modelled from the spec: the liquidation trigger of the agent, true
exactly when the unrealized PnL has dropped below minus 80 percent of the
collateral. -/
def shouldLiquidate (pos : RawPosition) (oraclePrice : ℚ) : Bool :=
  decide (agentPnl pos oraclePrice < -(80 / 100) * formatUnits6 pos.collateral)

/-- Modelled from the spec: one monitoring sweep of the agent over the
indexed on-chain positions.  It watches open leveraged positions and returns
the ids for which it calls settlePosition, namely exactly those whose PnL
breaches the -80 percent threshold. -/
def agentSettleCalls (oracle : String → ℚ) (positions : List (Nat × RawPosition)) : List Nat :=
  (positions.filter
    (fun ip => ip.2.isOpen && decide (1 < ip.2.leverage) && shouldLiquidate ip.2 (oracle ip.2.marketId))).map
    (fun ip => ip.1)

/-- Spec-side yes price: the opposite-side shares over total shares, scaled
to a percentage, with the initial liquidity split evenly. -/
def specYesPrice (yesVolume noVolume initialLiquidity : ℚ) : ℚ :=
  ((initialLiquidity / 2 + noVolume) / (initialLiquidity + yesVolume + noVolume)) * 100

/-- Spec-side no price: the yes-side shares over total shares, scaled to a
percentage. -/
def specNoPrice (yesVolume noVolume initialLiquidity : ℚ) : ℚ :=
  ((initialLiquidity / 2 + yesVolume) / (initialLiquidity + yesVolume + noVolume)) * 100

theorem calculateAMMPrices_fst (yv nv L : ℚ) :
    (calculateAMMPrices yv nv L).1 = (L / 2 + nv) / (L / 2 + yv + (L / 2 + nv)) * 100 := rfl

theorem calculateAMMPrices_snd (yv nv L : ℚ) :
    (calculateAMMPrices yv nv L).2 = (L / 2 + yv) / (L / 2 + yv + (L / 2 + nv)) * 100 := rfl

/-- C3: with the default initial liquidity 1000, calculateAMMPrices returns
yesPrice = ((1000/2 + noVolume) / (1000 + yesVolume + noVolume)) x 100 and
noPrice = ((1000/2 + yesVolume) / (1000 + yesVolume + noVolume)) x 100:
each price is the opposite side's shares over total shares as a
percentage, the fixed liquidity split evenly between the sides. -/
theorem amm_prices_match_spec_formula (yv nv : ℚ) :
    calculateAMMPrices yv nv 1000 = (specYesPrice yv nv 1000, specNoPrice yv nv 1000) := by
  have h : (1000 : ℚ) / 2 + yv + (1000 / 2 + nv) = 1000 + yv + nv := by ring
  rw [Prod.ext_iff, calculateAMMPrices_fst, calculateAMMPrices_snd, h]
  exact ⟨rfl, rfl⟩

/-- C4 counterexample: at yesVolume = noVolume = -500 (a positive liquidity
of 1000), both share counts vanish, the denominator is zero, and the two
prices sum to 0, not 100. -/
theorem amm_constant_sum_fails_at_zero_denominator :
    ¬ ((calculateAMMPrices (-500) (-500) 1000).1 + (calculateAMMPrices (-500) (-500) 1000).2
        = 100) := by
  rw [calculateAMMPrices_fst, calculateAMMPrices_snd]
  norm_num

/-- C4 (amended): for every yesVolume, noVolume and every positive
initialLiquidity whose total share count initialLiquidity + yesVolume +
noVolume is nonzero — in particular whenever both volumes are nonnegative —
the two prices returned by calculateAMMPrices sum exactly to 100 over the
rationals. -/
theorem amm_constant_sum (yv nv L : ℚ) (hL : 0 < L) (h : L + yv + nv ≠ 0) :
    (calculateAMMPrices yv nv L).1 + (calculateAMMPrices yv nv L).2 = 100 := by
  have ht : L / 2 + yv + (L / 2 + nv) = L + yv + nv := by ring
  rw [calculateAMMPrices_fst, calculateAMMPrices_snd, ht]
  field_simp
  ring

theorem amm_constant_sum_witness :
    (0 : ℚ) < 1000 ∧ (1000 : ℚ) + 0 + 0 ≠ 0
      ∧ (calculateAMMPrices 0 0 1000).1 + (calculateAMMPrices 0 0 1000).2 = 100 :=
  ⟨by norm_num, by norm_num, amm_constant_sum 0 0 1000 (by norm_num) (by norm_num)⟩

/-- C8: for nonnegative volumes the denominator of calculateAMMPrices is at
least the initial liquidity 1000, hence strictly positive, and both
returned prices lie strictly between 0 and 100. -/
theorem amm_prices_bounded (yv nv : ℚ) (hy : 0 ≤ yv) (hn : 0 ≤ nv) :
    1000 ≤ (1000 : ℚ) / 2 + yv + (1000 / 2 + nv)
    ∧ 0 < (1000 : ℚ) / 2 + yv + (1000 / 2 + nv)
    ∧ 0 < (calculateAMMPrices yv nv 1000).1 ∧ (calculateAMMPrices yv nv 1000).1 < 100
    ∧ 0 < (calculateAMMPrices yv nv 1000).2 ∧ (calculateAMMPrices yv nv 1000).2 < 100 := by
  have ht : (0 : ℚ) < 1000 / 2 + yv + (1000 / 2 + nv) := by linarith
  have hyS : (0 : ℚ) < 1000 / 2 + yv := by linarith
  have hnS : (0 : ℚ) < 1000 / 2 + nv := by linarith
  refine ⟨by linarith, ht, ?_, ?_, ?_, ?_⟩
  · rw [calculateAMMPrices_fst]
    exact mul_pos (div_pos hnS ht) (by norm_num)
  · rw [calculateAMMPrices_fst]
    have hlt : 1000 / 2 + nv < (1000 : ℚ) / 2 + yv + (1000 / 2 + nv) := by linarith
    have hdiv := (div_lt_one ht).mpr hlt
    calc (1000 / 2 + nv) / ((1000 : ℚ) / 2 + yv + (1000 / 2 + nv)) * 100
        < 1 * 100 := mul_lt_mul_of_pos_right hdiv (by norm_num)
      _ = 100 := by norm_num
  · rw [calculateAMMPrices_snd]
    exact mul_pos (div_pos hyS ht) (by norm_num)
  · rw [calculateAMMPrices_snd]
    have hlt : 1000 / 2 + yv < (1000 : ℚ) / 2 + yv + (1000 / 2 + nv) := by linarith
    have hdiv := (div_lt_one ht).mpr hlt
    calc (1000 / 2 + yv) / ((1000 : ℚ) / 2 + yv + (1000 / 2 + nv)) * 100
        < 1 * 100 := mul_lt_mul_of_pos_right hdiv (by norm_num)
      _ = 100 := by norm_num

theorem amm_prices_bounded_witness :
    (0 : ℚ) ≤ 0 ∧ (0 : ℚ) ≤ 0
      ∧ (1000 ≤ (1000 : ℚ) / 2 + 0 + (1000 / 2 + 0)
        ∧ 0 < (1000 : ℚ) / 2 + 0 + (1000 / 2 + 0)
        ∧ 0 < (calculateAMMPrices 0 0 1000).1 ∧ (calculateAMMPrices 0 0 1000).1 < 100
        ∧ 0 < (calculateAMMPrices 0 0 1000).2 ∧ (calculateAMMPrices 0 0 1000).2 < 100) :=
  ⟨le_refl 0, le_refl 0, amm_prices_bounded 0 0 (le_refl 0) (le_refl 0)⟩

/-- C7: fetchPositions copies marketId, trader, isLongYes, entryPrice,
collateral, leverage, openedAt and isOpen from the contract tuple into the
Position record unchanged apart from numeric conversion, sets id to the
fetch index, and adds only the derived currentPrice and pnl fields. -/
theorem mkPosition_copies_contract_fields (markets : List Market) (i : Nat)
    (pos : RawPosition) :
    (mkPosition markets i pos).marketId = pos.marketId
    ∧ (mkPosition markets i pos).trader = pos.trader
    ∧ (mkPosition markets i pos).isLongYes = pos.isLongYes
    ∧ (mkPosition markets i pos).entryPrice = (pos.entryPrice : ℚ)
    ∧ (mkPosition markets i pos).collateral = pos.collateral
    ∧ (mkPosition markets i pos).leverage = pos.leverage
    ∧ (mkPosition markets i pos).openedAt = pos.openedAt
    ∧ (mkPosition markets i pos).isOpen = pos.isOpen
    ∧ (mkPosition markets i pos).id = i
    ∧ (mkPosition markets i pos).currentPrice = currentPriceFor markets pos
    ∧ (mkPosition markets i pos).pnl = fetchPnl pos (currentPriceFor markets pos) :=
  ⟨rfl, rfl, rfl, rfl, rfl, rfl, rfl, rfl, rfl, rfl, rfl⟩

/-- C10: both branches of handleTrade attach the same collateral,
parseUnits(amount.toFixed(6), 6), so the value sent with openPosition does
not depend on the chosen leverage; the amount falls back to 10 when the
trade-amount input does not parse. -/
theorem trade_collateral_independent_of_leverage (lev lev2 : Nat) (parsed : Option ℚ) :
    tradeCollateralAmount lev parsed = parseUnits6 (parseTradeAmount parsed)
    ∧ tradeCollateralAmount lev parsed = tradeCollateralAmount lev2 parsed
    ∧ parseTradeAmount none = 10 := by
  refine ⟨?_, ?_, rfl⟩ <;> simp [tradeCollateralAmount]

/-- A concrete leverage-1 contract tuple on the first mock market, holding
2 USDC of collateral, entered at price 40. -/
def spotRaw : RawPosition :=
  ⟨"Will SpaceX Starship reach orbit in 2025?", "0xA11CE", true, 40, 2000000, 1, 0, true⟩

/-- A concrete leverage-2 contract tuple on the first mock market, holding
2 USDC of collateral, entered at price 40. -/
def levRaw : RawPosition :=
  ⟨"Will SpaceX Starship reach orbit in 2025?", "0xA11CE", true, 40, 2000000, 2, 0, true⟩

/-- A concrete leverage-2 front-end Position record used to instantiate
statements about handleClosePosition. -/
def levPosition : Position :=
  ⟨7, "Will SpaceX Starship reach orbit in 2025?", "0xA11CE", true, 40, 2000000, 2, 0, true, 78, 19 / 25⟩

/-- C1 counterexample: for the leverage-1 position spotRaw (2 USDC of
collateral, entry 40, current probability 78) fetchPositions computes
pnl = (78 - 40)/100 = 0.38, while the claimed formula
(currentPrice - entryPrice)/100 x collateral x leverage gives 0.76. -/
theorem fetch_pnl_formula_fails_for_spot :
    ¬ (fetchPnl spotRaw (currentPriceFor MARKETS spotRaw)
        = ((currentPriceFor MARKETS spotRaw - (spotRaw.entryPrice : ℚ)) / 100)
            * formatUnits6 spotRaw.collateral * (spotRaw.leverage : ℚ)) := by
  have hcp : currentPriceFor MARKETS spotRaw = 78 := by rfl
  rw [hcp]
  norm_num [fetchPnl, spotRaw, formatUnits6]

/-- C1 (amended): the PnL equals (currentPrice - entryPrice)/100 x
collateral x leverage for every position with leverage different from 1 in
fetchPositions and for every position, any leverage included, in
handleClosePosition; for leverage = 1 fetchPositions instead computes the
bare percentage difference (currentPrice - entryPrice)/100, ignoring
collateral. -/
theorem pnl_formula_amended (pos : RawPosition) (position : Position) (cp cp2 : ℚ) :
    (pos.leverage ≠ 1 →
      fetchPnl pos cp
        = ((cp - (pos.entryPrice : ℚ)) / 100) * formatUnits6 pos.collateral * (pos.leverage : ℚ))
    ∧ (pos.leverage = 1 → fetchPnl pos cp = (cp - (pos.entryPrice : ℚ)) / 100)
    ∧ closePnl position cp2
        = ((cp2 - position.entryPrice) / 100) * formatUnits6 position.collateral
            * (position.leverage : ℚ) := by
  refine ⟨fun h => by simp [fetchPnl, h], fun h => by simp [fetchPnl, h], ?_⟩
  by_cases h : position.leverage = 1
  · unfold closePnl
    rw [if_pos h, h]
    push_cast
    ring
  · simp [closePnl, h]

theorem pnl_formula_amended_witness :
    levRaw.leverage ≠ 1
    ∧ fetchPnl levRaw 78
        = ((78 - (levRaw.entryPrice : ℚ)) / 100) * formatUnits6 levRaw.collateral
            * (levRaw.leverage : ℚ) :=
  ⟨by decide, (pnl_formula_amended levRaw levPosition 78 0).1 (by decide)⟩

/-- C5: routing is keyed on the leverage field alone: leverage 1 takes the
spot branch (in fetchPositions the bare price-difference PnL, in
handleTrade the spot path) and leverage above 1 takes the synthetic branch
(the collateral-and-leverage PnL, the perpetual path), and two positions
with equal leverage always take the same branch. -/
theorem routing_keyed_on_leverage (pos q : RawPosition) (cp : ℚ) (lev : Nat) :
    (pos.leverage = 1 →
      pnlPathOf pos = ExecutionPath.spot
        ∧ fetchPnl pos cp = (cp - (pos.entryPrice : ℚ)) / 100)
    ∧ (1 < pos.leverage →
      pnlPathOf pos = ExecutionPath.synthetic
        ∧ fetchPnl pos cp
            = ((cp - (pos.entryPrice : ℚ)) / 100) * formatUnits6 pos.collateral * (pos.leverage : ℚ))
    ∧ (lev = 1 → tradePathOf lev = ExecutionPath.spot)
    ∧ (1 < lev → tradePathOf lev = ExecutionPath.synthetic)
    ∧ (pos.leverage = q.leverage → pnlPathOf pos = pnlPathOf q) := by
  refine ⟨?_, ?_, ?_, ?_, ?_⟩
  · exact fun h => ⟨by simp [pnlPathOf, h], by simp [fetchPnl, h]⟩
  · intro h
    have h1 : pos.leverage ≠ 1 := by omega
    exact ⟨by simp [pnlPathOf, h1], by simp [fetchPnl, h1]⟩
  · intro h
    simp [tradePathOf, h]
  · intro h
    simp [tradePathOf, h]
  · intro h
    simp [pnlPathOf, h]

theorem routing_keyed_on_leverage_witness :
    1 < levRaw.leverage
    ∧ pnlPathOf levRaw = ExecutionPath.synthetic
    ∧ tradePathOf 1 = ExecutionPath.spot :=
  ⟨by decide, ((routing_keyed_on_leverage levRaw levRaw 78 1).2.1 (by decide)).1,
    (routing_keyed_on_leverage levRaw levRaw 78 1).2.2.1 rfl⟩

/-- The sum of the USDC-converted collaterals of a list of positions. -/
def sumVolumeUSDC (l : List Position) : ℚ :=
  (l.map (fun p => formatUnits6 p.collateral)).sum

/-- Spec-side yes volume of a market: total USDC collateral over the open
positions on that market that are long yes. -/
def specYesVolume (positions : List Position) (market : Market) : ℚ :=
  sumVolumeUSDC (positions.filter (fun p => p.isLongYes && (p.marketId == market.title && p.isOpen)))

/-- Spec-side no volume of a market: total USDC collateral over the open
positions on that market that are not long yes. -/
def specNoVolume (positions : List Position) (market : Market) : ℚ :=
  sumVolumeUSDC (positions.filter (fun p => !p.isLongYes && (p.marketId == market.title && p.isOpen)))

theorem accumulateVolumes_go (l : List Position) (a b : ℚ) :
    l.foldl
      (fun acc p =>
        let volumeUSDC := formatUnits6 p.collateral
        if p.isLongYes then (acc.1 + volumeUSDC, acc.2) else (acc.1, acc.2 + volumeUSDC))
      (a, b)
    = (a + sumVolumeUSDC (l.filter (fun p => p.isLongYes)),
       b + sumVolumeUSDC (l.filter (fun p => !p.isLongYes))) := by
  induction l generalizing a b with
  | nil => simp [sumVolumeUSDC]
  | cons p t ih =>
    cases hp : p.isLongYes <;>
      simp [List.filter_cons, hp, ih, sumVolumeUSDC, Prod.ext_iff] <;> ring

theorem accumulateVolumes_eq (l : List Position) :
    accumulateVolumes l
    = (sumVolumeUSDC (l.filter (fun p => p.isLongYes)),
       sumVolumeUSDC (l.filter (fun p => !p.isLongYes))) := by
  rw [accumulateVolumes, accumulateVolumes_go]
  simp

/-- C6: the simulated price curve is driven by the locally observed
volumes: the yes volume of a market is the summed USDC collateral of its
open long-yes positions, the no volume that of its other open positions,
totalVolume is their sum, and the yes and no prices are exactly
calculateAMMPrices applied to those volumes. -/
theorem market_stats_from_local_volumes (positions : List Position) (market : Market) :
    (computeMarketStats positions market).yesVolume = specYesVolume positions market
    ∧ (computeMarketStats positions market).noVolume = specNoVolume positions market
    ∧ (computeMarketStats positions market).totalVolume
        = (computeMarketStats positions market).yesVolume
            + (computeMarketStats positions market).noVolume
    ∧ ((computeMarketStats positions market).yesPrice,
        (computeMarketStats positions market).noPrice)
        = calculateAMMPrices (computeMarketStats positions market).yesVolume
            (computeMarketStats positions market).noVolume 1000 := by
  refine ⟨?_, ?_, rfl, rfl⟩
  · show (accumulateVolumes (positions.filter (fun p => p.marketId == market.title && p.isOpen))).1
        = specYesVolume positions market
    simp only [accumulateVolumes_eq, List.filter_filter]
    rfl
  · show (accumulateVolumes (positions.filter (fun p => p.marketId == market.title && p.isOpen))).2
        = specNoVolume positions market
    simp only [accumulateVolumes_eq, List.filter_filter]
    rfl

/-- C2: in a monitoring sweep of the spec-modelled agent, settlePosition is
called on a position exactly when it is open, leveraged, and its
unrealized PnL against the oracle price has dropped below minus 80 percent
of its collateral; positions whose loss stays within the threshold are
never force-closed. -/
theorem agent_settles_exactly_below_threshold (oracle : String → ℚ)
    (positions : List (Nat × RawPosition)) (i : Nat) :
    i ∈ agentSettleCalls oracle positions
    ↔ ∃ p : RawPosition, (i, p) ∈ positions ∧ p.isOpen = true ∧ 1 < p.leverage
        ∧ agentPnl p (oracle p.marketId) < -(80 / 100) * formatUnits6 p.collateral := by
  unfold agentSettleCalls shouldLiquidate
  simp only [List.mem_map, List.mem_filter]
  constructor
  · rintro ⟨⟨j, p⟩, ⟨hmem, hcond⟩, rfl⟩
    simp only [Bool.and_eq_true, decide_eq_true_eq] at hcond
    exact ⟨p, hmem, hcond.1.1, hcond.1.2, hcond.2⟩
  · rintro ⟨p, hmem, hopen, hlev, hpnl⟩
    refine ⟨(i, p), ⟨hmem, ?_⟩, rfl⟩
    simp only [hopen, Bool.and_eq_true, decide_eq_true_eq]
    exact ⟨⟨trivial, hlev⟩, hpnl⟩

theorem handleClosePosition_found (markets : List Market) (stats : Nat → Option MarketStats)
    (s : AppState) (positionId : Nat) (position : Position) (fail : Option CloseStep)
    (hfind : s.positions.find? (fun p => p.id == positionId) = some position) :
    handleClosePosition markets stats true s positionId fail
    = match fail with
      | some _ =>
        { positions := s.positions
        , closingPositionId := none
        , notification := some ⟨CloseMessage.failedToClose, NotificationKind.error⟩ }
      | none =>
        { positions := s.positions.filter (fun p => p.id != positionId)
        , closingPositionId := none
        , notification :=
            some ⟨CloseMessage.realizedPnl
                (closePnl position (closeCurrentPrice markets stats position)),
              if 0 ≤ closePnl position (closeCurrentPrice markets stats position) then
                NotificationKind.success
              else NotificationKind.error⟩ } := by
  unfold handleClosePosition
  rw [hfind]
  cases fail <;> rfl

/-- C9: whenever handleClosePosition passes its guards (a wallet is
connected and the position is found), the positions list changes only when
every awaited step, the transaction send and its confirmation included,
succeeds; if any step throws, the positions list is unchanged and the
failure notification is shown; and in every such run closingPositionId
ends up null. -/
theorem close_position_atomic (markets : List Market) (stats : Nat → Option MarketStats)
    (s : AppState) (positionId : Nat) (position : Position) (fail : Option CloseStep)
    (hfind : s.positions.find? (fun p => p.id == positionId) = some position) :
    (handleClosePosition markets stats true s positionId fail).closingPositionId = none
    ∧ (fail ≠ none →
        (handleClosePosition markets stats true s positionId fail).positions = s.positions
        ∧ (handleClosePosition markets stats true s positionId fail).notification
            = some ⟨CloseMessage.failedToClose, NotificationKind.error⟩)
    ∧ ((handleClosePosition markets stats true s positionId fail).positions ≠ s.positions →
        fail = none)
    ∧ (fail = none →
        (handleClosePosition markets stats true s positionId fail).positions
          = s.positions.filter (fun p => p.id != positionId)) := by
  rw [handleClosePosition_found markets stats s positionId position fail hfind]
  cases fail with
  | some step =>
    exact ⟨rfl, fun _ => ⟨rfl, rfl⟩, fun hc => absurd rfl hc, fun h => Option.noConfusion h⟩
  | none =>
    exact ⟨rfl, fun h => absurd rfl h, fun _ => rfl, fun _ => rfl⟩

/-- A one-position app state used to instantiate the close-position
statement at a concrete input. -/
def demoState : AppState := ⟨[levPosition], none, none⟩

theorem close_position_atomic_witness :
    demoState.positions.find? (fun p => p.id == 7) = some levPosition
    ∧ ((handleClosePosition [] (fun _ => none) true demoState 7
          (some CloseStep.sendTx)).closingPositionId = none
      ∧ (some CloseStep.sendTx ≠ (none : Option CloseStep) →
          (handleClosePosition [] (fun _ => none) true demoState 7
              (some CloseStep.sendTx)).positions = demoState.positions
          ∧ (handleClosePosition [] (fun _ => none) true demoState 7
              (some CloseStep.sendTx)).notification
              = some ⟨CloseMessage.failedToClose, NotificationKind.error⟩)
      ∧ ((handleClosePosition [] (fun _ => none) true demoState 7
            (some CloseStep.sendTx)).positions ≠ demoState.positions →
          some CloseStep.sendTx = (none : Option CloseStep))
      ∧ (some CloseStep.sendTx = (none : Option CloseStep) →
          (handleClosePosition [] (fun _ => none) true demoState 7
              (some CloseStep.sendTx)).positions
            = demoState.positions.filter (fun p => p.id != 7))) :=
  ⟨rfl, close_position_atomic [] (fun _ => none) demoState 7 levPosition
      (some CloseStep.sendTx) rfl⟩

end Fulcrum
